import Mathlib

/-!
Verification of the Memecraft frontend against its specification.

The definitions below are shallow embeddings of the JavaScript source:

- MemeCanvasEditor history management (saveState, undo, redo, canUndo,
  canRedo) from src/frontend/src/pages/MyMemes.js;
- the loadMemes / loadTemplates / handleDelete page handlers from
  MyMemes.js and Templates.js;
- the axios service layer (API URL formation and the request
  interceptor) from src/frontend/src/services/api.js;
- the GifCreator frame-list handlers from Dashboard.js;
- getStorageLimit from Profile.js.

JavaScript arrays become Lean lists, the possibly negative historyStep
index becomes an Int, values that may be null or undefined become
Option, and a network request outcome becomes an Except value fed to
the handler.
-/

namespace Memecraft

/-! ### MemeCanvasEditor history (MyMemes.js) -/

/-- State of a MemeCanvasEditor relevant to history management: the
history array of canvas JSON snapshots, the historyStep index (an Int,
since the constructor sets it to -1), and the serialization of the
current canvas content (what JSON.stringify of canvas.toJSON returns). -/
structure EditorState where
  history : List String
  historyStep : Int
  canvas : String
deriving Repr, DecidableEq

/-- The constructor sets history to the empty array and historyStep
to -1; the canvas starts as a blank canvas serialization. -/
def initialEditor : EditorState :=
  { history := [], historyStep := -1, canvas := "" }

/-- MemeCanvasEditor.saveState: truncate the redo branch when
historyStep is behind the last entry, push the serialization of the
current canvas, set historyStep to the last index, and when the array
exceeds 50 entries shift off the oldest one and decrement historyStep. -/
def saveState (s : EditorState) : EditorState :=
  let json := s.canvas
  let hist :=
    if s.historyStep < (s.history.length : Int) - 1 then
      s.history.take (s.historyStep + 1).toNat
    else
      s.history
  let hist := hist ++ [json]
  let step : Int := (hist.length : Int) - 1
  if (hist.length : Int) > 50 then
    { s with history := hist.drop 1, historyStep := step - 1 }
  else
    { s with history := hist, historyStep := step }

/-- MemeCanvasEditor.undo: when historyStep is positive, decrement it
and load the snapshot stored at the new index into the canvas. -/
def undo (s : EditorState) : EditorState :=
  if s.historyStep > 0 then
    let step := s.historyStep - 1
    { s with historyStep := step, canvas := s.history.getD step.toNat "" }
  else
    s

/-- MemeCanvasEditor.redo: when historyStep is before the last entry,
increment it and load the snapshot stored at the new index. -/
def redo (s : EditorState) : EditorState :=
  if s.historyStep < (s.history.length : Int) - 1 then
    let step := s.historyStep + 1
    { s with historyStep := step, canvas := s.history.getD step.toNat "" }
  else
    s

/-- MemeCanvasEditor.canUndo: historyStep is strictly positive. -/
def canUndo (s : EditorState) : Bool :=
  s.historyStep > 0

/-- MemeCanvasEditor.canRedo: historyStep is strictly before the index
of the last history entry. -/
def canRedo (s : EditorState) : Bool :=
  s.historyStep < (s.history.length : Int) - 1

/-- An editor operation affecting the history: a canvas modification
(which changes the serialization that the next saveState records), or
one of saveState, undo, redo. -/
inductive EditorOp where
  | modify (json : String)
  | save
  | stepBack
  | stepForward
deriving Repr, DecidableEq

/-- Apply one editor operation to the state. -/
def applyOp (s : EditorState) : EditorOp → EditorState
  | .modify j => { s with canvas := j }
  | .save => saveState s
  | .stepBack => undo s
  | .stepForward => redo s

/-- Run a sequence of editor operations from the initial state. -/
def runOps (ops : List EditorOp) : EditorState :=
  ops.foldl applyOp initialEditor

/-- The bounded-stack invariant of the history: at most 50 entries and
historyStep between -1 and the last index inclusive, strengthened by
the reachability fact that historyStep is nonnegative as soon as the
history is nonempty. -/
def EditorInv (s : EditorState) : Prop :=
  s.history.length ≤ 50 ∧
    -1 ≤ s.historyStep ∧
    s.historyStep ≤ (s.history.length : Int) - 1 ∧
    (0 < s.history.length → 0 ≤ s.historyStep)

/-- A state is reachable when some operation sequence produces it from
the initial state. -/
def Reachable (s : EditorState) : Prop :=
  ∃ ops : List EditorOp, runOps ops = s

/-! ### Page handlers: MyMemes.loadMemes, Templates.loadTemplates,
MyMemes.handleDelete -/

/-- A meme record as the MyMemes page uses it: an id and a title. -/
structure Meme where
  id : String
  title : String
deriving Repr, DecidableEq

/-- A template record as the Templates page uses it. -/
structure MemeTemplate where
  id : String
  category : String
deriving Repr, DecidableEq

/-- Component state of the MyMemes page: the memes list, the loading
flag, the toast notifications issued so far, and a count of the HTTP
requests issued so far. -/
structure MyMemesState where
  memes : List Meme
  loading : Bool
  toasts : List String
  requests : Nat
deriving Repr, DecidableEq

/-- Component state of the Templates page. -/
structure TemplatesState where
  templates : List MemeTemplate
  loading : Bool
  toasts : List String
  requests : Nat
deriving Repr, DecidableEq

/-- MyMemes.loadMemes: set loading, issue one request to memeAPI.list,
store the response data on success, log and toast an error on failure,
and clear loading either way. The outcome of the single request is the
result argument. -/
def loadMemes (s : MyMemesState) (result : Except String (List Meme)) :
    MyMemesState :=
  let s := { s with loading := true, requests := s.requests + 1 }
  match result with
  | .ok data => { s with memes := data, loading := false }
  | .error _ =>
      { s with toasts := s.toasts ++ ["Failed to load memes"],
               loading := false }

/-- Templates.loadTemplates: same shape as loadMemes, storing templates
and toasting a failure message on error. -/
def loadTemplates (s : TemplatesState)
    (result : Except String (List MemeTemplate)) : TemplatesState :=
  let s := { s with loading := true, requests := s.requests + 1 }
  match result with
  | .ok data => { s with templates := data, loading := false }
  | .error _ =>
      { s with toasts := s.toasts ++ ["Failed to load templates"],
               loading := false }

/-- MyMemes.handleDelete: after window.confirm, issue the delete
request; on success toast and set the memes state to the previous list
filtered to entries whose id differs from the deleted id; on failure
toast an error and leave the list unchanged. Returns the new memes
list together with the toasts the call emitted. -/
def handleDelete (memes : List Meme) (memeId : String) (confirmed : Bool)
    (result : Except String Unit) : List Meme × List String :=
  if confirmed then
    match result with
    | .ok _ => (memes.filter (fun m => m.id ≠ memeId), ["Meme deleted"])
    | .error _ => (memes, ["Failed to delete meme"])
  else
    (memes, [])

/-! ### Failure-branch notifications of the API-calling page handlers -/

/-- One page handler: which page defines it, its name, whether its body
issues a request through the API service layer, and whether its catch
branch calls toast.error. The table below is read off the catch blocks
of the page sources. -/
structure PageHandler where
  page : String
  name : String
  issuesRequest : Bool
  errorToastOnFailure : Bool
deriving Repr, DecidableEq

/-- All page handlers with a try/catch around their body, as found in
AIGenerator.js, Dashboard.js, Editor.js, Profile.js, MyMemes.js and
Templates.js. Dashboard.loadTrends and Templates.loadCategories only
call console.error in their catch branch; Dashboard.handleExportGIF
renders the GIF client side and issues no API request. -/
def pageHandlers : List PageHandler :=
  [ ⟨"AIGenerator", "handleGenerateMeme", true, true⟩,
    ⟨"AIGenerator", "handleGenerateImage", true, true⟩,
    ⟨"Dashboard", "loadTrends", true, false⟩,
    ⟨"Dashboard", "handleExportGIF", false, true⟩,
    ⟨"Editor", "loadTrendTemplate", true, true⟩,
    ⟨"Editor", "loadMeme", true, true⟩,
    ⟨"Editor", "handleImageUpload", true, true⟩,
    ⟨"Editor", "handleSave", true, true⟩,
    ⟨"Profile", "handleAvatarUpload", true, true⟩,
    ⟨"MyMemes", "loadMemes", true, true⟩,
    ⟨"MyMemes", "handleDuplicate", true, true⟩,
    ⟨"MyMemes", "handleDelete", true, true⟩,
    ⟨"Templates", "loadCategories", true, false⟩,
    ⟨"Templates", "loadTemplates", true, true⟩,
    ⟨"Templates", "handleVote", true, true⟩ ]

/-! ### Service layer (services/api.js) -/

/-- The relative path an API method passes to axios: either a constant
path, or a template string splicing one id argument between a constant
front part and a constant back part. -/
inductive APIPath where
  | const (p : String)
  | withId (front back : String)
deriving Repr, DecidableEq

/-- The concrete relative path for a given id argument. -/
def APIPath.render : APIPath → String → String
  | .const p, _ => p
  | .withId front back, id => front ++ id ++ back

/-- One method of the service module: its export group, its name, and
the relative path it requests. -/
structure APIMethod where
  service : String
  name : String
  path : APIPath
deriving Repr, DecidableEq

/-- Every method of services/api.js, with the relative path each one
passes to the axios instance. -/
def apiMethods : List APIMethod :=
  [ ⟨"memeAPI", "list", .const "/memes"⟩,
    ⟨"memeAPI", "get", .withId "/memes/" ""⟩,
    ⟨"memeAPI", "create", .const "/memes"⟩,
    ⟨"memeAPI", "update", .withId "/memes/" ""⟩,
    ⟨"memeAPI", "delete", .withId "/memes/" ""⟩,
    ⟨"memeAPI", "duplicate", .withId "/memes/" "/duplicate"⟩,
    ⟨"templateAPI", "list", .const "/templates"⟩,
    ⟨"templateAPI", "get", .withId "/templates/" ""⟩,
    ⟨"templateAPI", "create", .const "/templates"⟩,
    ⟨"templateAPI", "vote", .withId "/templates/" "/vote"⟩,
    ⟨"templateAPI", "categories", .const "/templates/categories/list"⟩,
    ⟨"trendAPI", "list", .const "/trends"⟩,
    ⟨"trendAPI", "get", .withId "/trends/" ""⟩,
    ⟨"aiAPI", "generateImage", .const "/ai/generate-image"⟩,
    ⟨"aiAPI", "suggestCaptions", .const "/ai/suggest-captions"⟩,
    ⟨"aiAPI", "generateMeme", .const "/ai/generate-meme"⟩,
    ⟨"aiAPI", "predictViral", .const "/ai/predict-viral"⟩,
    ⟨"uploadAPI", "image", .const "/upload/image"⟩,
    ⟨"uploadAPI", "file", .const "/upload/file"⟩,
    ⟨"notificationAPI", "list", .const "/notifications"⟩,
    ⟨"notificationAPI", "markRead", .withId "/notifications/" "/read"⟩,
    ⟨"commentAPI", "list", .withId "/memes/" "/comments"⟩,
    ⟨"commentAPI", "create", .withId "/memes/" "/comments"⟩,
    ⟨"commentAPI", "resolve", .withId "/comments/" "/resolve"⟩,
    ⟨"commentAPI", "delete", .withId "/comments/" ""⟩ ]

/-- The base URL of the axios instance: REACT_APP_BACKEND_URL with the
string /api appended. -/
def apiBaseURL (backendURL : String) : String :=
  backendURL ++ "/api"

/-- The full URL a method requests: the base URL followed by the
relative path rendered at the given id. -/
def requestURL (backendURL : String) (m : APIMethod) (id : String) :
    String :=
  apiBaseURL backendURL ++ m.path.render id

/-- An axios request config as far as the interceptor touches it: the
Authorization header (absent by default), the remaining headers, and
the request url. -/
structure RequestConfig where
  authorization : Option String
  otherHeaders : List (String × String)
  url : String
deriving Repr, DecidableEq

/-- JavaScript truthiness of localStorage.getItem: null and the empty
string are falsy, any other string is truthy. -/
def tokenTruthy : Option String → Bool
  | none => false
  | some t => t ≠ ""

/-- The request interceptor of services/api.js: read the token from
localStorage; when it is truthy set the Authorization header to Bearer
followed by the token, otherwise return the config unchanged. -/
def requestInterceptor (token : Option String) (config : RequestConfig) :
    RequestConfig :=
  match token with
  | some t =>
      if t = "" then config
      else { config with authorization := some ("Bearer " ++ t) }
  | none => config

/-! ### GifCreator frame handlers (Dashboard.js) -/

/-- A GIF frame: id (Date.now), canvas data, duration, thumbnail. -/
structure Frame where
  id : Nat
  canvasData : String
  duration : Nat
  thumbnail : String
deriving Repr, DecidableEq

/-- Component state of the GifCreator: the frame list, the current
frame index, and the toasts issued so far. -/
structure GifState where
  frames : List Frame
  currentFrameIndex : Nat
  toasts : List String
deriving Repr, DecidableEq

/-- The GifCreator mounts with a single initial frame captured from
the fresh canvas, and currentFrameIndex 0. -/
def initialGif (f0 : Frame) : GifState :=
  { frames := [f0], currentFrameIndex := 0, toasts := [] }

/-- GifCreator.handleAddFrame: captureCurrentFrame returns null when
no editor is mounted, in which case nothing happens; otherwise the new
frame is appended, the current index moves to it, and a toast fires. -/
def handleAddFrame (s : GifState) (newFrame : Option Frame) : GifState :=
  match newFrame with
  | some f =>
      { s with frames := s.frames ++ [f],
               currentFrameIndex := s.frames.length,
               toasts := s.toasts ++ ["Frame added"] }
  | none => s

/-- GifCreator.handleDuplicateFrame: copy the frame at the index with
a fresh id and splice the copy in right after it (splice clamps the
position to the end of the array, as take and drop do). -/
def handleDuplicateFrame (s : GifState) (index : Nat) (newId : Nat) :
    GifState :=
  let frameToDuplicate := s.frames.getD index ⟨newId, "", 0, ""⟩
  let duplicated := { frameToDuplicate with id := newId }
  { s with
      frames := s.frames.take (index + 1) ++ [duplicated] ++
        s.frames.drop (index + 1),
      toasts := s.toasts ++ ["Frame duplicated"] }

/-- GifCreator.handleDeleteFrame: refuse with an error toast when at
most one frame remains; otherwise keep exactly the frames whose
position differs from the index (the source filters on the array
index), clamp currentFrameIndex into the new range, and toast. -/
def handleDeleteFrame (s : GifState) (index : Nat) : GifState :=
  if s.frames.length ≤ 1 then
    { s with toasts := s.toasts ++ ["Cannot delete the only frame"] }
  else
    let newFrames :=
      (s.frames.enum.filter (fun p => p.1 ≠ index)).map Prod.snd
    let s' := { s with frames := newFrames,
                       toasts := s.toasts ++ ["Frame deleted"] }
    if s.currentFrameIndex ≥ newFrames.length then
      { s' with currentFrameIndex := newFrames.length - 1 }
    else
      s'

/-- One GifCreator frame operation. -/
inductive GifOp where
  | add (newFrame : Option Frame)
  | dup (index : Nat) (newId : Nat)
  | del (index : Nat)
deriving Repr, DecidableEq

/-- Apply one frame operation. -/
def applyGifOp (s : GifState) : GifOp → GifState
  | .add f => handleAddFrame s f
  | .dup i newId => handleDuplicateFrame s i newId
  | .del i => handleDeleteFrame s i

/-- Run a sequence of frame operations from the initial single-frame
state. -/
def runGifOps (f0 : Frame) (ops : List GifOp) : GifState :=
  ops.foldl applyGifOp (initialGif f0)

/-! ### Profile.getStorageLimit -/

/-- The limits object literal of getStorageLimit: a partial map from
plan names to byte limits; lookup of any other key yields undefined. -/
def storageLimits (plan : String) : Option Nat :=
  if plan = "FREE" then some (100 * 1024 * 1024)
  else if plan = "SOLO" then some (1024 * 1024 * 1024)
  else if plan = "TEAM" then some (5 * 1024 * 1024 * 1024)
  else if plan = "ENTERPRISE" then some (50 * 1024 * 1024 * 1024)
  else none

/-- JavaScript or-else on a possibly undefined number: undefined and 0
are falsy and fall through to the default. -/
def jsOrElse (v : Option Nat) (d : Nat) : Nat :=
  match v with
  | some n => if n = 0 then d else n
  | none => d

/-- Profile.getStorageLimit: look the plan type (possibly undefined)
up in the limits object and fall back to the FREE limit. -/
def getStorageLimit (planType : Option String) : Nat :=
  jsOrElse (planType.bind storageLimits) (100 * 1024 * 1024)

/-! ## Theorems -/

theorem editorInv_initial : EditorInv initialEditor := by
  simp [EditorInv, initialEditor]

theorem editorInv_saveState (s : EditorState) (h : EditorInv s) :
    EditorInv (saveState s) := by
  obtain ⟨h50, hm1, hle, hpos⟩ := h
  simp only [saveState, EditorInv]
  split_ifs <;>
    simp_all [List.length_take, List.length_append, List.length_drop] <;>
    omega

theorem editorInv_undo (s : EditorState) (h : EditorInv s) :
    EditorInv (undo s) := by
  obtain ⟨h50, hm1, hle, hpos⟩ := h
  simp only [undo, EditorInv]
  split_ifs <;> simp_all
  omega

theorem editorInv_redo (s : EditorState) (h : EditorInv s) :
    EditorInv (redo s) := by
  obtain ⟨h50, hm1, hle, hpos⟩ := h
  simp only [redo, EditorInv]
  split_ifs <;> simp_all
  omega

theorem editorInv_applyOp (s : EditorState) (op : EditorOp)
    (h : EditorInv s) : EditorInv (applyOp s op) := by
  cases op with
  | modify j => exact h
  | save => exact editorInv_saveState s h
  | stepBack => exact editorInv_undo s h
  | stepForward => exact editorInv_redo s h

theorem editorInv_foldl (ops : List EditorOp) (s : EditorState)
    (h : EditorInv s) : EditorInv (ops.foldl applyOp s) := by
  induction ops generalizing s with
  | nil => exact h
  | cons op rest ih => exact ih (applyOp s op) (editorInv_applyOp s op h)

theorem editorInv_of_reachable (s : EditorState) (h : Reachable s) :
    EditorInv s := by
  obtain ⟨ops, rfl⟩ := h
  exact editorInv_foldl ops initialEditor editorInv_initial

/-- C1: after every finite sequence of history operations from the
initial state (history empty, historyStep -1), the history holds at
most 50 entries and historyStep lies between -1 and the last index. -/
theorem history_bounded_stack_invariant (ops : List EditorOp) :
    (runOps ops).history.length ≤ 50 ∧
      -1 ≤ (runOps ops).historyStep ∧
      (runOps ops).historyStep ≤ ((runOps ops).history.length : Int) - 1 := by
  have h := editorInv_foldl ops initialEditor editorInv_initial
  exact ⟨h.1, h.2.1, h.2.2.1⟩

/-- C2: on a reachable editor state, when canUndo holds, undo followed
by redo restores historyStep and the history array, and leaves the
canvas holding the snapshot loaded from history at historyStep;
symmetrically when canRedo holds, redo followed by undo restores them. -/
theorem undo_redo_roundtrip (s : EditorState) (hr : Reachable s) :
    (canUndo s = true →
      (redo (undo s)).historyStep = s.historyStep ∧
        (redo (undo s)).history = s.history ∧
        (redo (undo s)).canvas = s.history.getD s.historyStep.toNat "") ∧
      (canRedo s = true →
        (undo (redo s)).historyStep = s.historyStep ∧
          (undo (redo s)).history = s.history ∧
          (undo (redo s)).canvas = s.history.getD s.historyStep.toNat "") := by
  obtain ⟨h50, hm1, hle, hpos⟩ := editorInv_of_reachable s hr
  constructor
  · intro hu
    have hstep : s.historyStep > 0 := by simpa [canUndo] using hu
    have hlt : s.historyStep - 1 < (s.history.length : Int) - 1 := by omega
    simp only [undo, hstep, if_pos, redo]
    simp only [hlt, if_pos]
    have heq : s.historyStep - 1 + 1 = s.historyStep := by omega
    simp [heq]
  · intro hrd
    have hstep : s.historyStep < (s.history.length : Int) - 1 := by
      simpa [canRedo] using hrd
    have hnn : 0 ≤ s.historyStep := by
      have : 0 < s.history.length := by omega
      exact hpos this
    have hgt : s.historyStep + 1 > 0 := by omega
    simp only [redo, hstep, if_pos, undo]
    simp only [hgt, if_pos]
    have heq : s.historyStep + 1 - 1 = s.historyStep := by omega
    simp [heq]

/-- Concrete check of the round-trip theorem on the reachable state
reached by three saves and one undo. -/
theorem undo_redo_roundtrip_witness :
    canUndo (runOps [EditorOp.modify "a", EditorOp.save, EditorOp.modify "b",
        EditorOp.save, EditorOp.modify "c", EditorOp.save,
        EditorOp.stepBack]) = true ∧
      (redo (undo (runOps [EditorOp.modify "a", EditorOp.save,
          EditorOp.modify "b", EditorOp.save, EditorOp.modify "c",
          EditorOp.save, EditorOp.stepBack]))).historyStep =
        (runOps [EditorOp.modify "a", EditorOp.save, EditorOp.modify "b",
          EditorOp.save, EditorOp.modify "c", EditorOp.save,
          EditorOp.stepBack]).historyStep := by
  have h := undo_redo_roundtrip (runOps [EditorOp.modify "a", EditorOp.save,
    EditorOp.modify "b", EditorOp.save, EditorOp.modify "c", EditorOp.save,
    EditorOp.stepBack]) ⟨[EditorOp.modify "a", EditorOp.save,
    EditorOp.modify "b", EditorOp.save, EditorOp.modify "c", EditorOp.save,
    EditorOp.stepBack], rfl⟩
  exact ⟨by decide, (h.1 (by decide)).1⟩

theorem getD_append_singleton (l : List String) (j : String) :
    (l ++ [j]).getD l.length "" = j := by
  simp [List.getD_append_right]

theorem getD_last_shifted (T : List String) (j : String) (h : 1 ≤ T.length) :
    ((T ++ [j]).drop 1).getD (T.length - 1) "" = j := by
  rw [List.drop_append_of_le_length h]
  have hlen : (T.drop 1).length = T.length - 1 := by simp
  calc ((T.drop 1) ++ [j]).getD (T.length - 1) ""
      = ((T.drop 1) ++ [j]).getD (T.drop 1).length "" := by rw [hlen]
    _ = j := getD_append_singleton _ _

/-- C3: after saveState, historyStep points at the last history entry,
canRedo is false, the entry at historyStep is the serialization of the
current canvas, and every retained entry is either that new snapshot or
came from the prefix of the old history up to the old historyStep (the
old redo branch is discarded); this covers both the plain push branch
and the over-50 shift branch. -/
theorem saveState_push_semantics (s : EditorState) :
    (saveState s).historyStep = ((saveState s).history.length : Int) - 1 ∧
      canRedo (saveState s) = false ∧
      (saveState s).history.getD (saveState s).historyStep.toNat "" =
        s.canvas ∧
      ∀ x ∈ (saveState s).history,
        x = s.canvas ∨ x ∈ s.history.take (s.historyStep + 1).toNat := by
  have htake : ¬ (s.historyStep < (s.history.length : Int) - 1) →
      s.history.take (s.historyStep + 1).toNat = s.history := by
    intro h
    exact List.take_of_length_le (by omega)
  simp only [saveState, canRedo]
  split_ifs with h1 h2 h3
  case pos =>
    refine ⟨by simp, by simp, ?_, ?_⟩
    · have hT : 1 ≤ (s.history.take (s.historyStep + 1).toNat).length := by
        simp only [List.length_append, List.length_singleton] at h2
        omega
      have hidx : ((((s.history.take (s.historyStep + 1).toNat ++
          [s.canvas]).length : Int) - 1) - 1).toNat =
          (s.history.take (s.historyStep + 1).toNat).length - 1 := by
        simp only [List.length_append, List.length_singleton]
        omega
      simp only [hidx]
      exact getD_last_shifted _ _ hT
    · intro x hx
      have hx' := List.mem_of_mem_drop hx
      rcases List.mem_append.mp hx' with h | h
      · exact Or.inr h
      · exact Or.inl (List.mem_singleton.mp h)
  case neg =>
    refine ⟨by simp, by simp, ?_, ?_⟩
    · have hidx : ((((s.history.take (s.historyStep + 1).toNat ++
          [s.canvas]).length : Int) - 1)).toNat =
          (s.history.take (s.historyStep + 1).toNat).length := by
        simp only [List.length_append, List.length_singleton]
        omega
      simp only [hidx]
      exact getD_append_singleton _ _
    · intro x hx
      rcases List.mem_append.mp hx with h | h
      · exact Or.inr h
      · exact Or.inl (List.mem_singleton.mp h)
  case pos =>
    refine ⟨by simp, by simp, ?_, ?_⟩
    · have hT : 1 ≤ s.history.length := by
        simp only [List.length_append, List.length_singleton] at h3
        omega
      have hidx : ((((s.history ++ [s.canvas]).length : Int) - 1) - 1).toNat =
          s.history.length - 1 := by
        simp only [List.length_append, List.length_singleton]
        omega
      simp only [hidx]
      exact getD_last_shifted _ _ hT
    · intro x hx
      have hx' := List.mem_of_mem_drop hx
      rcases List.mem_append.mp hx' with h | h
      · refine Or.inr ?_
        rw [htake h1]
        exact h
      · exact Or.inl (List.mem_singleton.mp h)
  case neg =>
    refine ⟨by simp, by simp, ?_, ?_⟩
    · have hidx : ((((s.history ++ [s.canvas]).length : Int) - 1)).toNat =
          s.history.length := by
        simp only [List.length_append, List.length_singleton]
        omega
      simp only [hidx]
      exact getD_append_singleton _ _
    · intro x hx
      rcases List.mem_append.mp hx with h | h
      · refine Or.inr ?_
        rw [htake h1]
        exact h
      · exact Or.inl (List.mem_singleton.mp h)

/-- Concrete check of the saveState theorem on a state sitting in the
middle of its history, so the truncation branch runs. -/
theorem saveState_push_semantics_witness :
    (saveState ⟨["a", "b", "c"], 1, "z"⟩).historyStep =
        ((saveState ⟨["a", "b", "c"], 1, "z"⟩).history.length : Int) - 1 ∧
      canRedo (saveState ⟨["a", "b", "c"], 1, "z"⟩) = false ∧
      ("a" = "z" ∨
        "a" ∈ (["a", "b", "c"] : List String).take ((1 : Int) + 1).toNat) := by
  have h := saveState_push_semantics ⟨["a", "b", "c"], 1, "z"⟩
  exact ⟨h.1, h.2.1, h.2.2.2 "a" (by decide)⟩

/-- C4: when the single list request of MyMemes.loadMemes or
Templates.loadTemplates fails, exactly one request was attempted, an
error toast is surfaced, the previously held items keep their prior
value, and the loading flag ends up false. -/
theorem load_failure_preserves_items (s : MyMemesState) (t : TemplatesState)
    (e eT : String) :
    (loadMemes s (.error e)).memes = s.memes ∧
      (loadMemes s (.error e)).requests = s.requests + 1 ∧
      (loadMemes s (.error e)).toasts =
        s.toasts ++ ["Failed to load memes"] ∧
      (loadMemes s (.error e)).loading = false ∧
      (loadTemplates t (.error eT)).templates = t.templates ∧
      (loadTemplates t (.error eT)).requests = t.requests + 1 ∧
      (loadTemplates t (.error eT)).toasts =
        t.toasts ++ ["Failed to load templates"] ∧
      (loadTemplates t (.error eT)).loading = false := by
  simp [loadMemes, loadTemplates]

/-- C5, counterexample: it is not the case that every API-calling page
handler toasts on failure; Dashboard.loadTrends issues a request but
its catch branch only logs to the console. -/
theorem api_failure_toast_counterexample :
    ¬ (∀ h ∈ pageHandlers, h.issuesRequest = true →
        h.errorToastOnFailure = true) := by
  decide

/-- C5, amended: every API-calling page handler except
Dashboard.loadTrends and Templates.loadCategories (whose catch branches
only log to the console) surfaces an error toast on request failure. -/
theorem api_failure_toast_amended :
    ∀ h ∈ pageHandlers, h.issuesRequest = true →
      h.name ≠ "loadTrends" → h.name ≠ "loadCategories" →
      h.errorToastOnFailure = true := by
  decide

/-- Concrete check of the amended toast claim on MyMemes.loadMemes. -/
theorem api_failure_toast_amended_witness :
    (⟨"MyMemes", "loadMemes", true, true⟩ : PageHandler) ∈ pageHandlers ∧
      (⟨"MyMemes", "loadMemes", true, true⟩ : PageHandler).errorToastOnFailure
        = true := by
  refine ⟨by decide, ?_⟩
  exact api_failure_toast_amended ⟨"MyMemes", "loadMemes", true, true⟩
    (by decide) (by decide) (by decide) (by decide)

/-- C6: a confirmed, successful handleDelete keeps a subsequence of the
previous memes list (so remaining entries are unchanged and keep their
relative order), contains no entry with the deleted id, and keeps every
entry whose id differs with unchanged multiplicity. -/
theorem handleDelete_removes_exactly (memes : List Meme) (memeId : String) :
    ((handleDelete memes memeId true (.ok ())).1).Sublist memes ∧
      (∀ m : Meme, m.id = memeId →
        m ∉ (handleDelete memes memeId true (.ok ())).1) ∧
      ∀ m : Meme, m.id ≠ memeId →
        ((handleDelete memes memeId true (.ok ())).1).count m =
          memes.count m := by
  have hD : (handleDelete memes memeId true (.ok ())).1 =
      memes.filter (fun m => decide (m.id ≠ memeId)) := by
    simp [handleDelete]
  refine ⟨?_, ?_, ?_⟩
  · rw [hD]
    exact List.filter_sublist memes
  · intro m hm hmem
    rw [hD] at hmem
    have := (List.mem_filter.mp hmem).2
    exact absurd hm (by simpa using this)
  · intro m hm
    rw [hD]
    exact List.count_filter (by simpa using hm)

/-- Concrete check of the handleDelete theorem: deleting id a from a
three-element list removes both entries with that id and keeps the
other entry once. -/
theorem handleDelete_removes_exactly_witness :
    (⟨"a", "t1"⟩ : Meme) ∉
        (handleDelete [⟨"a", "t1"⟩, ⟨"b", "t2"⟩, ⟨"a", "t3"⟩] "a" true
          (.ok ())).1 ∧
      ((handleDelete [⟨"a", "t1"⟩, ⟨"b", "t2"⟩, ⟨"a", "t3"⟩] "a" true
          (.ok ())).1).count ⟨"b", "t2"⟩ =
        ([⟨"a", "t1"⟩, ⟨"b", "t2"⟩, ⟨"a", "t3"⟩] : List Meme).count
          ⟨"b", "t2"⟩ := by
  have h := handleDelete_removes_exactly
    [⟨"a", "t1"⟩, ⟨"b", "t2"⟩, ⟨"a", "t3"⟩] "a"
  exact ⟨h.2.1 ⟨"a", "t1"⟩ rfl, h.2.2 ⟨"b", "t2"⟩ (by decide)⟩

theorem append_api_const (b p q : String) (h : "/api" ++ p = "/api/" ++ q) :
    (b ++ "/api") ++ p = (b ++ "/api/") ++ q := by
  rw [String.append_assoc, String.append_assoc, h]

theorem append_api_withId (b front fr back id : String)
    (h : "/api" ++ front = "/api/" ++ fr) :
    (b ++ "/api") ++ (front ++ id ++ back) =
      (b ++ "/api/") ++ (fr ++ id ++ back) := by
  rw [String.append_assoc b, String.append_assoc b]
  rw [← String.append_assoc "/api" (front ++ id) back,
    ← String.append_assoc "/api" front id,
    ← String.append_assoc "/api/" (fr ++ id) back,
    ← String.append_assoc "/api/" fr id, h]

/-- C7: every method of the service layer requests a URL equal to
REACT_APP_BACKEND_URL with /api and the relative path appended, and the
path after the backend URL always lies under /api/. -/
theorem api_requests_under_api_prefix (m : APIMethod)
    (hm : m ∈ apiMethods) (backendURL id : String) :
    ∃ rest : String,
      requestURL backendURL m id = (backendURL ++ "/api/") ++ rest := by
  fin_cases hm
  all_goals simp only [requestURL, apiBaseURL, APIPath.render]
  · exact ⟨"memes", append_api_const backendURL _ _ (by decide)⟩
  · exact ⟨"memes/" ++ id ++ "",
      append_api_withId backendURL _ _ _ id (by decide)⟩
  · exact ⟨"memes", append_api_const backendURL _ _ (by decide)⟩
  · exact ⟨"memes/" ++ id ++ "",
      append_api_withId backendURL _ _ _ id (by decide)⟩
  · exact ⟨"memes/" ++ id ++ "",
      append_api_withId backendURL _ _ _ id (by decide)⟩
  · exact ⟨"memes/" ++ id ++ "/duplicate",
      append_api_withId backendURL _ _ _ id (by decide)⟩
  · exact ⟨"templates", append_api_const backendURL _ _ (by decide)⟩
  · exact ⟨"templates/" ++ id ++ "",
      append_api_withId backendURL _ _ _ id (by decide)⟩
  · exact ⟨"templates", append_api_const backendURL _ _ (by decide)⟩
  · exact ⟨"templates/" ++ id ++ "/vote",
      append_api_withId backendURL _ _ _ id (by decide)⟩
  · exact ⟨"templates/categories/list",
      append_api_const backendURL _ _ (by decide)⟩
  · exact ⟨"trends", append_api_const backendURL _ _ (by decide)⟩
  · exact ⟨"trends/" ++ id ++ "",
      append_api_withId backendURL _ _ _ id (by decide)⟩
  · exact ⟨"ai/generate-image", append_api_const backendURL _ _ (by decide)⟩
  · exact ⟨"ai/suggest-captions", append_api_const backendURL _ _ (by decide)⟩
  · exact ⟨"ai/generate-meme", append_api_const backendURL _ _ (by decide)⟩
  · exact ⟨"ai/predict-viral", append_api_const backendURL _ _ (by decide)⟩
  · exact ⟨"upload/image", append_api_const backendURL _ _ (by decide)⟩
  · exact ⟨"upload/file", append_api_const backendURL _ _ (by decide)⟩
  · exact ⟨"notifications", append_api_const backendURL _ _ (by decide)⟩
  · exact ⟨"notifications/" ++ id ++ "/read",
      append_api_withId backendURL _ _ _ id (by decide)⟩
  · exact ⟨"memes/" ++ id ++ "/comments",
      append_api_withId backendURL _ _ _ id (by decide)⟩
  · exact ⟨"memes/" ++ id ++ "/comments",
      append_api_withId backendURL _ _ _ id (by decide)⟩
  · exact ⟨"comments/" ++ id ++ "/resolve",
      append_api_withId backendURL _ _ _ id (by decide)⟩
  · exact ⟨"comments/" ++ id ++ "",
      append_api_withId backendURL _ _ _ id (by decide)⟩

/-- Concrete check of the URL theorem on memeAPI.duplicate. -/
theorem api_requests_under_api_prefix_witness :
    ∃ rest : String,
      requestURL "http://localhost:8001"
          ⟨"memeAPI", "duplicate", .withId "/memes/" "/duplicate"⟩ "42" =
        ("http://localhost:8001" ++ "/api/") ++ rest :=
  api_requests_under_api_prefix _ (by decide) "http://localhost:8001" "42"

/-- C8: the request interceptor adds a Bearer Authorization header
exactly when localStorage holds a truthy (non-null, non-empty) token,
changing nothing else; with no token stored, the config passes through
unchanged. -/
theorem request_interceptor_auth (token : Option String)
    (config : RequestConfig) :
    (∀ t : String, token = some t → t ≠ "" →
      requestInterceptor token config =
        { config with authorization := some ("Bearer " ++ t) }) ∧
      (token = none ∨ token = some "" →
        requestInterceptor token config = config) := by
  constructor
  · rintro t rfl ht
    simp [requestInterceptor, ht]
  · rintro (rfl | rfl) <;> simp [requestInterceptor]

/-- Concrete check of the interceptor theorem: a stored token becomes a
Bearer header, an absent token leaves the config untouched. -/
theorem request_interceptor_auth_witness :
    requestInterceptor (some "tok123")
        ⟨none, [("Accept", "application/json")], "/memes"⟩ =
      ⟨some ("Bearer " ++ "tok123"), [("Accept", "application/json")],
        "/memes"⟩ ∧
      requestInterceptor none ⟨none, [], "/trends"⟩ =
        ⟨none, [], "/trends"⟩ := by
  constructor
  · exact (request_interceptor_auth (some "tok123")
      ⟨none, [("Accept", "application/json")], "/memes"⟩).1 "tok123" rfl
      (by decide)
  · exact (request_interceptor_auth none ⟨none, [], "/trends"⟩).2
      (Or.inl rfl)

theorem enumFrom_filter_lt (xs : List Frame) (m k : Nat) (hk : k < m) :
    (xs.enumFrom m).filter (fun p => p.1 ≠ k) = xs.enumFrom m := by
  induction xs generalizing m with
  | nil => rfl
  | cons x xs ih =>
    have hne : (decide (((m, x) : Nat × Frame).1 ≠ k)) = true :=
      decide_eq_true (by omega)
    show ((m, x) :: xs.enumFrom (m + 1)).filter (fun p => p.1 ≠ k) =
      (m, x) :: xs.enumFrom (m + 1)
    rw [List.filter_cons, if_pos hne, ih (m + 1) (by omega)]

theorem enumFrom_filter_ne_map_snd (l : List Frame) (n i : Nat) :
    ((l.enumFrom n).filter (fun p => p.1 ≠ n + i)).map Prod.snd =
      l.eraseIdx i := by
  induction l generalizing n i with
  | nil => rfl
  | cons x xs ih =>
    cases i with
    | zero =>
      have hself : ¬ ((decide (((n, x) : Nat × Frame).1 ≠ n + 0)) = true) :=
        by simp
      show (((n, x) :: xs.enumFrom (n + 1)).filter
          (fun p => p.1 ≠ n + 0)).map Prod.snd = xs
      rw [List.filter_cons, if_neg hself,
        enumFrom_filter_lt xs (n + 1) (n + 0) (by omega)]
      exact List.enumFrom_map_snd (n + 1) xs
    | succ j =>
      have hne : (decide (((n, x) : Nat × Frame).1 ≠ n + (j + 1))) = true :=
        decide_eq_true (by omega)
      show (((n, x) :: xs.enumFrom (n + 1)).filter
          (fun p => p.1 ≠ n + (j + 1))).map Prod.snd = x :: xs.eraseIdx j
      rw [List.filter_cons, if_pos hne, List.map_cons]
      congr 1
      have harg : n + (j + 1) = (n + 1) + j := by omega
      rw [harg]
      exact ih (n + 1) j

theorem enum_filter_ne_map_snd (l : List Frame) (i : Nat) :
    (l.enum.filter (fun p => p.1 ≠ i)).map Prod.snd = l.eraseIdx i := by
  have h := enumFrom_filter_ne_map_snd l 0 i
  simpa using h

theorem handleDeleteFrame_frames (s : GifState) (i : Nat)
    (h : 1 < s.frames.length) :
    (handleDeleteFrame s i).frames = s.frames.eraseIdx i ∧
      (handleDeleteFrame s i).toasts = s.toasts ++ ["Frame deleted"] := by
  simp only [handleDeleteFrame]
  rw [if_neg (by omega)]
  rw [enum_filter_ne_map_snd s.frames i]
  split_ifs <;> exact ⟨rfl, rfl⟩

theorem gif_frames_ne_nil_step (s : GifState) (op : GifOp)
    (h : s.frames ≠ []) : (applyGifOp s op).frames ≠ [] := by
  cases op with
  | add f =>
      cases f with
      | none => exact h
      | some fr => simp [applyGifOp, handleAddFrame]
  | dup i newId => simp [applyGifOp, handleDuplicateFrame]
  | del i =>
      by_cases hlen : s.frames.length ≤ 1
      · simp only [applyGifOp, handleDeleteFrame, if_pos hlen]
        exact h
      · have h2 : 1 < s.frames.length := by omega
        have hf := (handleDeleteFrame_frames s i h2).1
        simp only [applyGifOp]
        rw [hf]
        have : 0 < (s.frames.eraseIdx i).length := by
          rw [List.length_eraseIdx]
          split_ifs <;> omega
        exact List.ne_nil_of_length_pos this

/-- C9: from the single-frame mount state the GifCreator frame list is
never empty after any sequence of add, duplicate and delete operations;
handleDeleteFrame on a list of at most one frame changes nothing and
toasts an error, and on a longer list with an in-range index it removes
exactly the frame at that index. -/
theorem gif_frames_invariant :
    (∀ (f0 : Frame) (ops : List GifOp), (runGifOps f0 ops).frames ≠ []) ∧
      (∀ (s : GifState) (i : Nat), s.frames.length ≤ 1 →
        (handleDeleteFrame s i).frames = s.frames ∧
          (handleDeleteFrame s i).toasts =
            s.toasts ++ ["Cannot delete the only frame"]) ∧
      ∀ (s : GifState) (i : Nat), 1 < s.frames.length →
        (handleDeleteFrame s i).frames = s.frames.eraseIdx i := by
  refine ⟨?_, ?_, ?_⟩
  · intro f0 ops
    have hrun : ∀ (l : List GifOp) (s : GifState), s.frames ≠ [] →
        (l.foldl applyGifOp s).frames ≠ [] := by
      intro l
      induction l with
      | nil => exact fun s hs => hs
      | cons op rest ih =>
          exact fun s hs => ih (applyGifOp s op)
            (gif_frames_ne_nil_step s op hs)
    exact hrun ops (initialGif f0) (by simp [initialGif])
  · intro s i hlen
    simp [handleDeleteFrame, if_pos hlen]
  · intro s i hlen
    exact (handleDeleteFrame_frames s i hlen).1

/-- Concrete check of the GifCreator theorem: deleting from the mount
state is refused, deleting index 1 of a two-frame list removes exactly
that frame. -/
theorem gif_frames_invariant_witness :
    (runGifOps ⟨1, "c0", 1000, "t0"⟩ [GifOp.del 0]).frames ≠ [] ∧
      (handleDeleteFrame (initialGif ⟨1, "c0", 1000, "t0"⟩) 0).frames =
        (initialGif ⟨1, "c0", 1000, "t0"⟩).frames ∧
      (handleDeleteFrame
          ⟨[⟨1, "c0", 1000, "t0"⟩, ⟨2, "c1", 500, "t1"⟩], 0, []⟩ 1).frames =
        ([⟨1, "c0", 1000, "t0"⟩, ⟨2, "c1", 500, "t1"⟩] :
          List Frame).eraseIdx 1 := by
  refine ⟨gif_frames_invariant.1 ⟨1, "c0", 1000, "t0"⟩ [GifOp.del 0], ?_, ?_⟩
  · exact (gif_frames_invariant.2.1 (initialGif ⟨1, "c0", 1000, "t0"⟩) 0
      (by simp [initialGif])).1
  · exact gif_frames_invariant.2.2
      ⟨[⟨1, "c0", 1000, "t0"⟩, ⟨2, "c1", 500, "t1"⟩], 0, []⟩ 1 (by simp)

/-- C10: getStorageLimit returns the documented byte limit for each of
the four plan names and falls back to the FREE limit on undefined or
unknown plan types. -/
theorem getStorageLimit_spec :
    getStorageLimit (some "FREE") = 100 * 1024 * 1024 ∧
      getStorageLimit (some "SOLO") = 1024 * 1024 * 1024 ∧
      getStorageLimit (some "TEAM") = 5 * 1024 * 1024 * 1024 ∧
      getStorageLimit (some "ENTERPRISE") = 50 * 1024 * 1024 * 1024 ∧
      getStorageLimit none = 100 * 1024 * 1024 ∧
      ∀ p : String, p ≠ "FREE" → p ≠ "SOLO" → p ≠ "TEAM" →
        p ≠ "ENTERPRISE" → getStorageLimit (some p) = 100 * 1024 * 1024 := by
  refine ⟨by decide, by decide, by decide, by decide, by decide, ?_⟩
  intro p h1 h2 h3 h4
  simp [getStorageLimit, storageLimits, jsOrElse, h1, h2, h3, h4]

/-- Concrete check of getStorageLimit on an unknown plan name. -/
theorem getStorageLimit_spec_witness :
    getStorageLimit (some "GOLD") = 100 * 1024 * 1024 :=
  getStorageLimit_spec.2.2.2.2.2 "GOLD" (by decide) (by decide) (by decide)
    (by decide)

end Memecraft
